import Mathlib

/-!
Verification of the Alpha keyring core (src/crypto/alpha/alphasecret.rs).

The core composes external cryptographic primitives (ring, x25519-dalek)
into a hybrid-encryption keyring.  The primitives themselves are library
code outside this repository; they are modelled as an abstract bundle
`Prims` together with the standard laws they satisfy (`LawfulPrims`).
Everything the repository source itself does — key handling, KDF-input
construction, nonce and salt choice, envelope assembly, DER serialization —
is embedded concretely, byte for byte, over `List Nat` byte strings.

Rust panics (`expect`, out-of-bounds slicing) inside `decrypt` are modelled
as explicit `Except.error` values, the standard shallow embedding of an
abort: the function has no way to return data on those paths.
-/

/-- Bytes are naturals; all source-level byte strings are `List Nat`. -/
abbrev Bytes := List Nat

/-- The external cryptographic primitives used by alphasecret.rs:
x25519 (public-key derivation and Diffie-Hellman), PBKDF2-HMAC-SHA256,
ChaCha20-Poly1305 AEAD (ciphertext part and 16-byte tag part, since
ring appends the tag to the in-place ciphertext), and Ed25519.
`edVerifyRes` models `UnparsedPublicKey::verify`, which returns a
`Result` that the source collapses with `is_ok()`. -/
structure Prims where
  x25519Pub : Bytes → Bytes
  dh : Bytes → Bytes → Bytes
  pbkdf2HmacSha256 : Nat → Bytes → Bytes → Nat → Bytes
  aeadSealCT : Bytes → Bytes → Bytes → Bytes → Bytes
  aeadSealTag : Bytes → Bytes → Bytes → Bytes → Bytes
  aeadOpen : Bytes → Bytes → Bytes → Bytes → Option Bytes
  edPub : Bytes → Bytes
  edSign : Bytes → Bytes → Bytes
  edVerifyRes : Bytes → Bytes → Bytes → Option Unit

/-- The laws the real primitives satisfy and on which the source relies:
commutativity of Diffie-Hellman, AEAD open inverts seal, fixed output
lengths, and Ed25519 verification of honest signatures. -/
structure LawfulPrims (P : Prims) : Prop where
  dh_comm : ∀ a b, P.dh a (P.x25519Pub b) = P.dh b (P.x25519Pub a)
  x25519Pub_len : ∀ s, (P.x25519Pub s).length = 32
  aeadOpen_seal : ∀ k n aad pt,
    P.aeadOpen k n aad (P.aeadSealCT k n aad pt ++ P.aeadSealTag k n aad pt) = some pt
  aeadSealCT_len : ∀ k n aad pt, (P.aeadSealCT k n aad pt).length = pt.length
  aeadSealTag_len : ∀ k n aad pt, (P.aeadSealTag k n aad pt).length = 16
  pbkdf2_len : ∀ it salt inp l, (P.pbkdf2HmacSha256 it salt inp l).length = l
  edPub_len : ∀ s, (P.edPub s).length = 32
  edVerify_sign : ∀ s m, P.edVerifyRes (P.edPub s) m (P.edSign s m) = some ()

/-- Public part of an Alpha keyring (struct AlphaPublic). -/
structure AlphaPublic where
  ed25519_pubkey : Bytes
  x25519_pubkey : Bytes
deriving DecidableEq

/-- Secret part of an Alpha keyring (struct AlphaSecret).  The
`ed25519_keypair` field of the source is derived deterministically from
`ed25519_seed` (`Ed25519KeyPair::from_seed_unchecked`), so it is not
stored separately; every use is `P.edPub ed25519_seed` / `P.edSign
ed25519_seed`. -/
structure AlphaSecret where
  ed25519_seed : Bytes
  x25519_secret : Bytes
  pubkey : AlphaPublic
deriving DecidableEq

/-- Encrypted envelope (struct Encrypted from the crypto module). -/
structure Encrypted where
  ephemeral_pubkey : Bytes
  data : Bytes
deriving DecidableEq

/-- AlphaSecret::new, with the two random inputs (Ed25519 seed and
x25519 static secret) made explicit parameters. -/
def mkAlphaSecret (P : Prims) (ed25519_seed x25519_secret : Bytes) : AlphaSecret :=
  { ed25519_seed := ed25519_seed
  , x25519_secret := x25519_secret
  , pubkey :=
    { ed25519_pubkey := P.edPub ed25519_seed
    , x25519_pubkey := P.x25519Pub x25519_secret } }

/-- Public::signing_public_key for AlphaPublic. -/
def signing_public_key (pk : AlphaPublic) : Bytes :=
  pk.ed25519_pubkey

/-- Public::encryption_public_key for AlphaPublic. -/
def encryption_public_key (pk : AlphaPublic) : Bytes :=
  pk.x25519_pubkey

/-- Secret::sign: `self.ed25519_keypair.sign(bytes)`. -/
def sign (P : Prims) (self : AlphaSecret) (bytes : Bytes) : Bytes :=
  P.edSign self.ed25519_seed bytes

/-- Public::verify: builds an UnparsedPublicKey over the signing public
key and collapses the verification Result with `is_ok()`. -/
def verify (P : Prims) (self : AlphaPublic) (bytes signature : Bytes) : Bool :=
  (P.edVerifyRes (signing_public_key self) bytes signature).isSome

/-- The fixed 12-byte AEAD nonce used by both encrypt and decrypt
(`aead::Nonce::assume_unique_for_key([0,...,0,1])`). -/
def aeadNonce : Bytes := [0, 0, 0, 0, 0, 0, 0, 0, 0, 0, 0, 1]

/-- The fixed KDF salt (`let salt = [0];`), identical on both sides. -/
def kdfSalt : Bytes := [0]

/-- The fixed PBKDF2 iteration count (`NonZeroU32::new(1000)`). -/
def kdfIterations : Nat := 1000

/-- Errors with which decrypt aborts (both are `panic!`-style aborts in
the source: a slice out of bounds on line 98 and `expect("opening
failed")` on line 127). -/
inductive DecryptError where
  | ephemeralKeyTooShort
  | openingFailed
deriving DecidableEq

/-- Secret::encrypt, with the fresh ephemeral x25519 secret
(`EphemeralSecret::new(&mut OsRng)`) made an explicit parameter.
Mirrors lines 131-173 of the source; note the body never reads `self`. -/
def encrypt (P : Prims) (_self : AlphaSecret) (plain_bytes : Bytes)
    (peer_public : AlphaPublic) (ephemeral_key : Bytes) : Encrypted :=
  let ephemeral_pub := P.x25519Pub ephemeral_key
  let shared_secret := P.dh ephemeral_key peer_public.x25519_pubkey
  let kdf_input := shared_secret ++ ephemeral_pub ++ peer_public.x25519_pubkey
  let key := P.pbkdf2HmacSha256 kdfIterations kdfSalt kdf_input 32
  let in_out := P.aeadSealCT key aeadNonce [] plain_bytes
      ++ P.aeadSealTag key aeadNonce [] plain_bytes
  { ephemeral_pubkey := ephemeral_pub, data := in_out }

/-- The symmetric key encrypt derives (lines 142-156). -/
def encryptKey (P : Prims) (peer_public : AlphaPublic) (ephemeral_key : Bytes) : Bytes :=
  P.pbkdf2HmacSha256 kdfIterations kdfSalt
    (P.dh ephemeral_key peer_public.x25519_pubkey
      ++ P.x25519Pub ephemeral_key ++ peer_public.x25519_pubkey) 32

/-- Secret::decrypt, lines 95-129.  The source slices the first 32 bytes
of the ephemeral-key field (a panic when fewer are present), recomputes
the shared secret with its own static secret, derives the key from
shared secret, ephemeral public key and its OWN agreement public key,
and opens the AEAD ciphertext, panicking on authentication failure.
Both panics are embedded as `Except.error`. -/
def decrypt (P : Prims) (self : AlphaSecret) (enc_bytes : Encrypted)
    (_sender_pubkey : AlphaPublic) : Except DecryptError Bytes :=
  if enc_bytes.ephemeral_pubkey.length < 32 then
    Except.error DecryptError.ephemeralKeyTooShort
  else
    let ephemeral_pub := enc_bytes.ephemeral_pubkey.take 32
    let shared_secret := P.dh self.x25519_secret ephemeral_pub
    let kdf_input := shared_secret ++ ephemeral_pub
        ++ encryption_public_key self.pubkey
    let key := P.pbkdf2HmacSha256 kdfIterations kdfSalt kdf_input 32
    match P.aeadOpen key aeadNonce [] enc_bytes.data with
    | some decrypted_data => Except.ok decrypted_data
    | none => Except.error DecryptError.openingFailed

/-- The symmetric key decrypt derives (lines 104-117). -/
def decryptKey (P : Prims) (self : AlphaSecret) (enc_bytes : Encrypted) : Bytes :=
  P.pbkdf2HmacSha256 kdfIterations kdfSalt
    (P.dh self.x25519_secret (enc_bytes.ephemeral_pubkey.take 32)
      ++ enc_bytes.ephemeral_pubkey.take 32 ++ self.pubkey.x25519_pubkey) 32

/-- Big-endian 8-byte representation of a (64-bit) natural. -/
def i64be (n : Nat) : Bytes :=
  [n / 2 ^ 56 % 256, n / 2 ^ 48 % 256, n / 2 ^ 40 % 256, n / 2 ^ 32 % 256,
   n / 2 ^ 24 % 256, n / 2 ^ 16 % 256, n / 2 ^ 8 % 256, n % 256]

/-- Drop the leading zero bytes of a big-endian representation. -/
def stripLeadingZeros : Bytes → Bytes
  | [] => []
  | 0 :: rest => stripLeadingZeros rest
  | b :: rest => b :: rest

/-- Content octets of a DER INTEGER for a nonnegative value below 2^63,
as yasna writes them for `write_i64`/`write_u8`: minimal two's
complement, with a leading zero byte when the top bit would be set. -/
def derIntContent (n : Nat) : Bytes :=
  let bs := stripLeadingZeros (i64be n)
  let bs := if bs = [] then [0] else bs
  if 128 ≤ bs.headD 0 then 0 :: bs else bs

/-- DER definite-length octets: short form below 128, long form above. -/
def derLen (n : Nat) : Bytes :=
  if n < 128 then [n]
  else
    let bs := stripLeadingZeros (i64be n)
    (128 + bs.length) :: bs

/-- One DER tag-length-value field. -/
def tlv (tag : Nat) (content : Bytes) : Bytes :=
  tag :: derLen content.length ++ content

/-- DER INTEGER (tag 0x02) for a nonnegative value, as yasna writes it. -/
def derInt (n : Nat) : Bytes := tlv 2 (derIntContent n)

/-- DER OCTET STRING (tag 0x04), as yasna `write_bytes`. -/
def derOctets (b : Bytes) : Bytes := tlv 4 b

/-- DER SEQUENCE (tag 0x30), as yasna `write_sequence`. -/
def derSeq (content : Bytes) : Bytes := tlv 48 content

/-- Secret::serialize, lines 177-194: a DER SEQUENCE of the magic
constant 0xfe73ba2003, the private-key material tag 1, the version 1,
then the Ed25519 seed, the Ed25519 public key, the x25519 secret scalar
and the x25519 public key, each as an OCTET STRING. -/
def serialize (P : Prims) (self : AlphaSecret) : Bytes :=
  derSeq (derInt 0xfe73ba2003
    ++ derInt 1
    ++ derInt 1
    ++ derOctets self.ed25519_seed
    ++ derOctets (P.edPub self.ed25519_seed)
    ++ derOctets self.x25519_secret
    ++ derOctets self.pubkey.x25519_pubkey)

/-- Pad or cut a byte string to exactly 32 bytes (toy key normalizer). -/
def norm32 (s : Bytes) : Bytes := (s ++ List.replicate 32 0).take 32

/-- The toy authentication tag of the toy AEAD below. -/
def toyTag (k n : Bytes) : Bytes := (k ++ n ++ List.replicate 16 7).take 16

/-- A small concrete primitive bundle satisfying `LawfulPrims`, used to
instantiate the abstract theorems on computable inputs.  Diffie-Hellman
is bytewise addition modulo 256 (commutative), the AEAD is the identity
cipher with a key-and-nonce-dependent 16-byte tag, and Ed25519
signatures are the public key followed by a padded copy of the message. -/
def toyPrims : Prims where
  x25519Pub := norm32
  dh s p := List.zipWith (fun x y => (x + y) % 256) (norm32 s) p
  pbkdf2HmacSha256 it salt inp l :=
    ((salt ++ inp).map (fun x => (x + it) % 256) ++ List.replicate l 1).take l
  aeadSealCT _k _n _aad pt := pt
  aeadSealTag k n _aad _pt := toyTag k n
  aeadOpen k n _aad ct :=
    if 16 ≤ ct.length ∧ ct.drop (ct.length - 16) = toyTag k n then
      some (ct.take (ct.length - 16))
    else none
  edPub := norm32
  edSign s m := norm32 s ++ norm32 m
  edVerifyRes p m sig := if sig = p ++ norm32 m then some () else none

theorem norm32_length (s : Bytes) : (norm32 s).length = 32 := by
  simp [norm32]

theorem toyTag_length (k n : Bytes) : (toyTag k n).length = 16 := by
  simp only [toyTag, List.length_take, List.length_append, List.length_replicate]
  omega

theorem toyPrims_lawful : LawfulPrims toyPrims := by
  constructor
  · intro a b
    exact List.zipWith_comm_of_comm _ (fun x y => by rw [Nat.add_comm]) _ _
  · intro s
    exact norm32_length s
  · intro k n aad pt
    have htag : (toyTag k n).length = 16 := toyTag_length k n
    have hlen : (pt ++ toyTag k n).length = pt.length + 16 := by
      simp [htag]
    have hcut : (pt ++ toyTag k n).length - 16 = pt.length := by omega
    show (if 16 ≤ (pt ++ toyTag k n).length ∧
        (pt ++ toyTag k n).drop ((pt ++ toyTag k n).length - 16) = toyTag k n then
        some ((pt ++ toyTag k n).take ((pt ++ toyTag k n).length - 16))
      else none) = some pt
    rw [if_pos]
    · rw [hcut, List.take_left]
    · constructor
      · omega
      · rw [hcut, List.drop_left]
  · intro k n aad pt
    rfl
  · intro k n aad pt
    exact toyTag_length k n
  · intro it salt inp l
    simp only [toyPrims, List.length_take, List.length_append, List.length_map,
      List.length_replicate]
    omega
  · intro s
    exact norm32_length s
  · intro s m
    simp [toyPrims]

/-- A fixed toy secret keyring built from concrete 32-byte inputs. -/
def toySecretA : AlphaSecret :=
  mkAlphaSecret toyPrims (List.replicate 32 2) (List.replicate 32 3)

/-- A second, independently chosen toy secret keyring. -/
def toySecretB : AlphaSecret :=
  mkAlphaSecret toyPrims (List.replicate 32 4) (List.replicate 32 5)

/-- A toy envelope whose data is too short to carry a valid tag, so the
toy AEAD rejects it. -/
def toyEnvBad : Encrypted :=
  { ephemeral_pubkey := List.replicate 32 0, data := [9, 9] }

theorem decrypt_eq_of_short (P : Prims) (self : AlphaSecret) (enc : Encrypted)
    (spub : AlphaPublic) (h : enc.ephemeral_pubkey.length < 32) :
    decrypt P self enc spub = Except.error DecryptError.ephemeralKeyTooShort := by
  simp only [decrypt, if_pos h]

theorem decrypt_eq_of_ge (P : Prims) (self : AlphaSecret) (enc : Encrypted)
    (spub : AlphaPublic) (h : ¬enc.ephemeral_pubkey.length < 32) :
    decrypt P self enc spub =
      match P.aeadOpen (decryptKey P self enc) aeadNonce [] enc.data with
      | some pt => Except.ok pt
      | none => Except.error DecryptError.openingFailed := by
  simp only [decrypt, decryptKey, encryption_public_key, if_neg h]

theorem encrypt_eq (P : Prims) (self : AlphaSecret) (plain : Bytes)
    (peer : AlphaPublic) (eph : Bytes) :
    encrypt P self plain peer eph =
      { ephemeral_pubkey := P.x25519Pub eph
      , data := P.aeadSealCT (encryptKey P peer eph) aeadNonce [] plain
          ++ P.aeadSealTag (encryptKey P peer eph) aeadNonce [] plain } :=
  rfl

/-- Claim C1: for every plaintext p and every two independently
generated secret keyrings A and B, decrypting with the secret keyring of
B the envelope produced by encrypting p to the public keyring of B
returns exactly p. -/
theorem decrypt_encrypt_roundtrip (P : Prims) (hP : LawfulPrims P)
    (aEd aX bEd bX p eph : Bytes) (spub : AlphaPublic) :
    decrypt P (mkAlphaSecret P bEd bX)
      (encrypt P (mkAlphaSecret P aEd aX) p (mkAlphaSecret P bEd bX).pubkey eph)
      spub = Except.ok p := by
  have hlen := hP.x25519Pub_len eph
  have hge : ¬(encrypt P (mkAlphaSecret P aEd aX) p
      (mkAlphaSecret P bEd bX).pubkey eph).ephemeral_pubkey.length < 32 := by
    simp only [encrypt_eq, hlen]
    omega
  rw [decrypt_eq_of_ge P _ _ _ hge]
  have htake : (P.x25519Pub eph).take 32 = P.x25519Pub eph :=
    List.take_of_length_le (le_of_eq hlen)
  have hkey : decryptKey P (mkAlphaSecret P bEd bX)
      (encrypt P (mkAlphaSecret P aEd aX) p (mkAlphaSecret P bEd bX).pubkey eph)
      = encryptKey P (mkAlphaSecret P bEd bX).pubkey eph := by
    simp only [decryptKey, encryptKey, encrypt_eq, mkAlphaSecret, htake]
    rw [hP.dh_comm bX eph]
  rw [hkey]
  have hdata : (encrypt P (mkAlphaSecret P aEd aX) p
      (mkAlphaSecret P bEd bX).pubkey eph).data =
      P.aeadSealCT (encryptKey P (mkAlphaSecret P bEd bX).pubkey eph) aeadNonce [] p
        ++ P.aeadSealTag (encryptKey P (mkAlphaSecret P bEd bX).pubkey eph) aeadNonce [] p :=
    rfl
  rw [hdata, hP.aeadOpen_seal]

/-- Witness for C1 at concrete toy keyrings and plaintext. -/
theorem decrypt_encrypt_roundtrip_witness :
    decrypt toyPrims (mkAlphaSecret toyPrims (List.replicate 32 4) (List.replicate 32 5))
      (encrypt toyPrims (mkAlphaSecret toyPrims (List.replicate 32 2) (List.replicate 32 3))
        [10, 20, 30]
        (mkAlphaSecret toyPrims (List.replicate 32 4) (List.replicate 32 5)).pubkey
        (List.replicate 32 6))
      (mkAlphaSecret toyPrims (List.replicate 32 2) (List.replicate 32 3)).pubkey
      = Except.ok [10, 20, 30] :=
  decrypt_encrypt_roundtrip toyPrims toyPrims_lawful
    (List.replicate 32 2) (List.replicate 32 3)
    (List.replicate 32 4) (List.replicate 32 5)
    [10, 20, 30] (List.replicate 32 6)
    (mkAlphaSecret toyPrims (List.replicate 32 2) (List.replicate 32 3)).pubkey

/-- Claim C2: whenever the AEAD authentication check fails, or the
ephemeral-key bytes are shorter than 32, decrypt yields an explicit
decryption-failed error (the source aborts by panic, embedded as
`Except.error`), and any plaintext it does return is exactly the
authenticated AEAD opening — never corrupted data. -/
theorem decrypt_fails_explicitly (P : Prims) (self : AlphaSecret)
    (enc : Encrypted) (spub : AlphaPublic) :
    ((enc.ephemeral_pubkey.length < 32 ∨
        P.aeadOpen (decryptKey P self enc) aeadNonce [] enc.data = none) →
      ∃ e : DecryptError, decrypt P self enc spub = Except.error e) ∧
    (∀ pt, decrypt P self enc spub = Except.ok pt →
      P.aeadOpen (decryptKey P self enc) aeadNonce [] enc.data = some pt) := by
  by_cases hl : enc.ephemeral_pubkey.length < 32
  · constructor
    · intro _
      exact ⟨_, decrypt_eq_of_short P self enc spub hl⟩
    · intro pt hok
      rw [decrypt_eq_of_short P self enc spub hl] at hok
      exact absurd hok (by simp)
  · rw [decrypt_eq_of_ge P self enc spub hl]
    constructor
    · intro h
      rcases h with h | h
      · exact absurd h hl
      · rw [h]
        exact ⟨_, rfl⟩
    · intro pt hok
      rcases hopen : P.aeadOpen (decryptKey P self enc) aeadNonce [] enc.data with
        _ | pt2
      · rw [hopen] at hok
        exact absurd hok (by simp)
      · rw [hopen] at hok
        simp only [Except.ok.injEq] at hok
        rw [hok]

/-- Witness for C2: a concrete envelope the toy AEAD rejects makes
decrypt return an error. -/
theorem decrypt_fails_explicitly_witness :
    ∃ e : DecryptError,
      decrypt toyPrims toySecretB toyEnvBad toySecretA.pubkey = Except.error e :=
  (decrypt_fails_explicitly toyPrims toySecretB toyEnvBad toySecretA.pubkey).1
    (Or.inr (by decide))

/-- Claim C3: encrypt derives its 256-bit key with PBKDF2-HMAC-SHA256 at
the fixed iteration count 1000 and the fixed one-byte salt [0], over the
concatenation, in this order, of the raw shared secret, the ephemeral
public key bytes, and the agreement public key of the recipient; the
ciphertext is sealed under exactly that key. -/
theorem encrypt_kdf_spec (P : Prims) (self : AlphaSecret) (plain : Bytes)
    (peer : AlphaPublic) (eph : Bytes) :
    kdfIterations = 1000 ∧ kdfSalt = [0] ∧
    encryptKey P peer eph =
      P.pbkdf2HmacSha256 1000 [0]
        (P.dh eph peer.x25519_pubkey ++ P.x25519Pub eph ++ peer.x25519_pubkey) 32 ∧
    (encrypt P self plain peer eph).data =
      P.aeadSealCT (encryptKey P peer eph) aeadNonce [] plain
        ++ P.aeadSealTag (encryptKey P peer eph) aeadNonce [] plain :=
  ⟨rfl, rfl, rfl, rfl⟩

/-- Claim C4: both sides of the scheme run the 256-bit-key AEAD with no
associated data (the empty aad argument) and the same fixed 12-byte
nonce [0,0,0,0,0,0,0,0,0,0,0,1]: encrypt seals with it and decrypt
opens with it, and the derived keys on both sides are 32 bytes. -/
theorem aead_fixed_nonce (P : Prims) (hP : LawfulPrims P)
    (selfE selfD : AlphaSecret) (plain : Bytes) (peer spub : AlphaPublic)
    (eph : Bytes) (enc : Encrypted)
    (h : ¬enc.ephemeral_pubkey.length < 32) :
    aeadNonce = [0, 0, 0, 0, 0, 0, 0, 0, 0, 0, 0, 1] ∧
    aeadNonce.length = 12 ∧
    (encryptKey P peer eph).length = 32 ∧
    (decryptKey P selfD enc).length = 32 ∧
    (encrypt P selfE plain peer eph).data =
      P.aeadSealCT (encryptKey P peer eph) aeadNonce [] plain
        ++ P.aeadSealTag (encryptKey P peer eph) aeadNonce [] plain ∧
    decrypt P selfD enc spub =
      match P.aeadOpen (decryptKey P selfD enc) aeadNonce [] enc.data with
      | some pt => Except.ok pt
      | none => Except.error DecryptError.openingFailed :=
  ⟨rfl, rfl, hP.pbkdf2_len _ _ _ _, hP.pbkdf2_len _ _ _ _, rfl,
    decrypt_eq_of_ge P selfD enc spub h⟩

/-- Witness for C4 at concrete toy values. -/
theorem aead_fixed_nonce_witness :
    decrypt toyPrims toySecretB toyEnvBad toySecretA.pubkey =
      match toyPrims.aeadOpen (decryptKey toyPrims toySecretB toyEnvBad)
          aeadNonce [] toyEnvBad.data with
      | some pt => Except.ok pt
      | none => Except.error DecryptError.openingFailed :=
  (aead_fixed_nonce toyPrims toyPrims_lawful toySecretA toySecretB [10, 20, 30]
    toySecretB.pubkey toySecretA.pubkey (List.replicate 32 6) toyEnvBad
    (by decide)).2.2.2.2.2

/-- Claim C5: for every message m and every secret keyring, verifying
the signature of m produced by that keyring against its own public part
returns true. -/
theorem verify_sign_roundtrip (P : Prims) (hP : LawfulPrims P)
    (edSeed xSec m : Bytes) :
    verify P (mkAlphaSecret P edSeed xSec).pubkey m
      (sign P (mkAlphaSecret P edSeed xSec) m) = true := by
  simp only [verify, sign, mkAlphaSecret, signing_public_key]
  rw [hP.edVerify_sign]
  rfl

/-- Witness for C5 at a concrete toy keyring and message. -/
theorem verify_sign_roundtrip_witness :
    verify toyPrims
      (mkAlphaSecret toyPrims (List.replicate 32 2) (List.replicate 32 3)).pubkey
      [7, 8, 9]
      (sign toyPrims
        (mkAlphaSecret toyPrims (List.replicate 32 2) (List.replicate 32 3))
        [7, 8, 9]) = true :=
  verify_sign_roundtrip toyPrims toyPrims_lawful
    (List.replicate 32 2) (List.replicate 32 3) [7, 8, 9]

/-- Claim C6: verify is a total boolean function: on every message and
every signature byte string it evaluates to true or false, a rejected or
malformed signature (the underlying verifier returning an error Result)
yields false rather than a propagated error, and it yields true exactly
when the underlying verifier accepts. -/
theorem verify_total_boolean (P : Prims) (pub : AlphaPublic) (m sig : Bytes) :
    (verify P pub m sig = true ∨ verify P pub m sig = false) ∧
    (P.edVerifyRes (signing_public_key pub) m sig = none →
      verify P pub m sig = false) ∧
    (∀ u, P.edVerifyRes (signing_public_key pub) m sig = some u →
      verify P pub m sig = true) := by
  refine ⟨?_, ?_, ?_⟩
  · cases h : verify P pub m sig
    · exact Or.inr rfl
    · exact Or.inl rfl
  · intro h
    simp [verify, h]
  · intro u h
    simp [verify, h]

/-- Witness for C6: a concrete one-byte (malformed) signature makes the
toy verifier return an error Result and verify return false. -/
theorem verify_total_boolean_witness :
    verify toyPrims
      (mkAlphaSecret toyPrims (List.replicate 32 2) (List.replicate 32 3)).pubkey
      [5] [1] = false :=
  (verify_total_boolean toyPrims
    (mkAlphaSecret toyPrims (List.replicate 32 2) (List.replicate 32 3)).pubkey
    [5] [1]).2.1 (by decide)

/-- Claim C7: serialize emits a DER tag-length-value SEQUENCE whose
fields come in this order: the magic constant 0xfe73ba2003, the
secret-material tag 1, the version 1 (all INTEGERs, tag 0x02), then the
signing seed, the signing public key, the agreement private scalar and
the agreement public key, each a length-delimited OCTET STRING (tag
0x04) of 32 bytes. -/
theorem serialize_layout (P : Prims) (hP : LawfulPrims P) (edSeed xSec : Bytes)
    (h1 : edSeed.length = 32) (h2 : xSec.length = 32) :
    serialize P (mkAlphaSecret P edSeed xSec) =
      tlv 48 (tlv 2 [0, 254, 115, 186, 32, 3] ++ tlv 2 [1] ++ tlv 2 [1]
        ++ tlv 4 edSeed ++ tlv 4 (P.edPub edSeed) ++ tlv 4 xSec
        ++ tlv 4 (P.x25519Pub xSec)) ∧
    edSeed.length = 32 ∧ (P.edPub edSeed).length = 32 ∧
    xSec.length = 32 ∧ (P.x25519Pub xSec).length = 32 := by
  refine ⟨?_, h1, hP.edPub_len edSeed, h2, hP.x25519Pub_len xSec⟩
  have hm : derIntContent 0xfe73ba2003 = [0, 254, 115, 186, 32, 3] := by decide
  have h1c : derIntContent 1 = [1] := by decide
  simp only [serialize, derSeq, derInt, derOctets, mkAlphaSecret, hm, h1c]

/-- Witness for C7 at a concrete toy keyring. -/
theorem serialize_layout_witness :
    serialize toyPrims
      (mkAlphaSecret toyPrims (List.replicate 32 2) (List.replicate 32 3)) =
      tlv 48 (tlv 2 [0, 254, 115, 186, 32, 3] ++ tlv 2 [1] ++ tlv 2 [1]
        ++ tlv 4 (List.replicate 32 2)
        ++ tlv 4 (toyPrims.edPub (List.replicate 32 2))
        ++ tlv 4 (List.replicate 32 3)
        ++ tlv 4 (toyPrims.x25519Pub (List.replicate 32 3))) :=
  (serialize_layout toyPrims toyPrims_lawful
    (List.replicate 32 2) (List.replicate 32 3) (by decide) (by decide)).1

/-- Claim C8: decrypt never reads the sender-public-keyring argument:
two runs of decrypt on the same envelope and recipient keyring with any
two sender public keyrings return the same result. -/
theorem decrypt_ignores_sender (P : Prims) (self : AlphaSecret)
    (enc : Encrypted) (spub1 spub2 : AlphaPublic) :
    decrypt P self enc spub1 = decrypt P self enc spub2 :=
  rfl

/-- Claim C9: every envelope encrypt returns carries a 32-byte ephemeral
public key and a ciphertext of plaintext length plus 16, whose last 16
bytes are the AEAD authentication tag. -/
theorem encrypt_envelope_shape (P : Prims) (hP : LawfulPrims P)
    (self : AlphaSecret) (plain : Bytes) (peer : AlphaPublic) (eph : Bytes) :
    (encrypt P self plain peer eph).ephemeral_pubkey.length = 32 ∧
    (encrypt P self plain peer eph).data.length = plain.length + 16 ∧
    (encrypt P self plain peer eph).data.drop plain.length =
      P.aeadSealTag (encryptKey P peer eph) aeadNonce [] plain ∧
    (P.aeadSealTag (encryptKey P peer eph) aeadNonce [] plain).length = 16 := by
  have hct := hP.aeadSealCT_len (encryptKey P peer eph) aeadNonce [] plain
  refine ⟨hP.x25519Pub_len eph, ?_, ?_, hP.aeadSealTag_len _ _ _ _⟩
  · show (P.aeadSealCT (encryptKey P peer eph) aeadNonce [] plain
        ++ P.aeadSealTag (encryptKey P peer eph) aeadNonce [] plain).length
      = plain.length + 16
    rw [List.length_append, hct, hP.aeadSealTag_len]
  · show (P.aeadSealCT (encryptKey P peer eph) aeadNonce [] plain
        ++ P.aeadSealTag (encryptKey P peer eph) aeadNonce [] plain).drop plain.length
      = P.aeadSealTag (encryptKey P peer eph) aeadNonce [] plain
    rw [← hct, List.drop_left]

/-- Witness for C9 at concrete toy values. -/
theorem encrypt_envelope_shape_witness :
    (encrypt toyPrims toySecretA [10, 20, 30] toySecretB.pubkey
      (List.replicate 32 6)).data.length = 3 + 16 :=
  (encrypt_envelope_shape toyPrims toyPrims_lawful toySecretA [10, 20, 30]
    toySecretB.pubkey (List.replicate 32 6)).2.1

/-- Claim C10: encrypt never reads the key material of the calling
secret keyring: with the ephemeral randomness fixed, any two callers
produce identical envelopes for the same plaintext and recipient. -/
theorem encrypt_ignores_self (P : Prims) (s1 s2 : AlphaSecret)
    (plain : Bytes) (peer : AlphaPublic) (eph : Bytes) :
    encrypt P s1 plain peer eph = encrypt P s2 plain peer eph :=
  rfl
